import Mathlib

/-!
Verification of the GitHub webhook receiver's ingestion pipeline
(`webhook_receiver.py`, `models/repository_data.py`).

The Python code is shallowly embedded: JSON/Python dynamic values become the
inductive `PyVal`; Python's exception-raising attribute accesses become an
`Except PyErr` computation; the `try/except` wrappers around the extractors
become a catch turning errors into `Option.none`; Flask request/response
pairs become explicit structures; the MongoDB collection becomes a list of
records with insertion order preserved (the store contract of the spec:
insert appends and returns a fresh identifier).  Wall-clock time
(`datetime.utcnow().isoformat()`) is threaded as an explicit `now : String`
parameter.
-/

set_option autoImplicit false

namespace Webhook

/-- Python/JSON dynamic values as navigated by the receiver.  `dt` stands for
a `datetime` object (as produced by `datetime.utcnow()`), tagged with its
isoformat rendering. -/
inductive PyVal where
  | str : String → PyVal
  | int : Int → PyVal
  | bool : Bool → PyVal
  | none : PyVal
  | list : List PyVal → PyVal
  | dict : List (String × PyVal) → PyVal
  | dt : String → PyVal

/-- Python truthiness (`not x` tests): empty string, zero, `False`, `None`,
empty list and empty dict are falsy; a datetime object is truthy. -/
def pyTruthy : PyVal → Bool
  | .str s => !s.isEmpty
  | .int i => i != 0
  | .bool b => b
  | .none => false
  | .list xs => !xs.isEmpty
  | .dict d => !d.isEmpty
  | .dt _ => true

/-- Python `==` against a string literal: only a `str` with the same
contents compares equal. -/
def isStrEq (v : PyVal) (s : String) : Bool :=
  match v with
  | .str t => t == s
  | _ => false

/-- The only exception kind the embedded code paths can raise:
`AttributeError` from calling `.get` / `.startswith` on a value that does
not support it. -/
inductive PyErr where
  | attributeError
  deriving Repr, DecidableEq

/-- Python `v.get(key, default)`: defined on dicts, `AttributeError` on
every other value. -/
def pyGet (v : PyVal) (key : String) (dflt : PyVal) : Except PyErr PyVal :=
  match v with
  | .dict d => .ok ((d.lookup key).getD dflt)
  | _ => .error .attributeError

/-- Escaping of one character inside Python's `repr` of a string. -/
def pyEscChar (c : Char) : String :=
  if c = '\\' then "\\\\"
  else if c = '\'' then "\\'"
  else if c = '\n' then "\\n"
  else if c = '\r' then "\\r"
  else if c = '\t' then "\\t"
  else String.mk [c]

/-- Python `repr` of a string: single-quoted with escapes (the quote-choice
refinement for strings containing a single quote is not modelled). -/
def pyReprStr (s : String) : String :=
  "'" ++ String.join (s.data.map pyEscChar) ++ "'"

mutual

/-- Python `repr` of a value (used by `str` on containers). -/
def pyRepr : PyVal → String
  | .str s => pyReprStr s
  | .int i => toString i
  | .bool b => if b then "True" else "False"
  | .none => "None"
  | .dt s => s
  | .list xs => "[" ++ pyReprSeq xs ++ "]"
  | .dict d => "\x7b" ++ pyReprEntries d ++ "\x7d"

/-- Comma-separated `repr`s of list elements. -/
def pyReprSeq : List PyVal → String
  | [] => ""
  | [x] => pyRepr x
  | x :: xs => pyRepr x ++ ", " ++ pyReprSeq xs

/-- Comma-separated `repr`s of dict entries. -/
def pyReprEntries : List (String × PyVal) → String
  | [] => ""
  | [(k, v)] => pyReprStr k ++ ": " ++ pyRepr v
  | (k, v) :: xs => pyReprStr k ++ ": " ++ pyRepr v ++ ", " ++ pyReprEntries xs

end

/-- Python `str(v)`, as used by f-string interpolation. -/
def pyStr (v : PyVal) : String :=
  match v with
  | .str s => s
  | _ => pyRepr v

/-- Character-list core of Python's `s.split(sep)` with an explicit one-char
separator: adjacent separators produce empty fields; the result is never
empty. -/
def splitChars (sep : Char) : List Char → List (List Char)
  | [] => [[]]
  | c :: cs =>
    match splitChars sep cs with
    | [] => if c = sep then [[], []] else [[c]]
    | g :: gs => if c = sep then [] :: g :: gs else (c :: g) :: gs

/-- Python `s.split(sep)` for a one-character separator. -/
def pySplit (sep : Char) (s : String) : List String :=
  (splitChars sep s.data).map String.mk

/-- Character-list core of Python's `s.startswith(pre)`. -/
def isPreOf : List Char → List Char → Bool
  | [], _ => true
  | _ :: _, [] => false
  | p :: ps, c :: cs => p == c && isPreOf ps cs

/-- Python `s.startswith(pre)`. -/
def pyStartswith (s pre : String) : Bool :=
  isPreOf pre.data s.data

/-- A record as built by the extractors: the Python dict with keys
`author`, `pushed_to`, `on`, `timestamp`, `sample` (in insertion order). -/
abbrev Rec := List (String × PyVal)

/-- Lines 43-45 of `webhook_receiver.py`: `payload.get('pusher', {}).get('name',
'unknown')`, falling back to `payload.get('head_commit', {}).get('author',
{}).get('name', 'unknown')` when falsy or equal to `'unknown'`. -/
def pushAuthor (payload : PyVal) : Except PyErr PyVal := do
  let pusher ← pyGet payload "pusher" (.dict [])
  let author ← pyGet pusher "name" (.str "unknown")
  if !pyTruthy author || isStrEq author "unknown" then do
    let hc ← pyGet payload "head_commit" (.dict [])
    let au ← pyGet hc "author" (.dict [])
    pyGet au "name" (.str "unknown")
  else
    pure author

/-- Line 50 of `webhook_receiver.py`:
`ref.split('/')[-1] if ref.startswith('refs/heads/') else ref`. -/
def branchOfRef (ref : String) : String :=
  if pyStartswith ref "refs/heads/" then (pySplit '/' ref).getLastD "" else ref

/-- Line 48 of `webhook_receiver.py` (also line 79):
`payload.get('repository', {}).get('name', 'unknown')`. -/
def repositoryName (payload : PyVal) : Except PyErr PyVal := do
  let repoV ← pyGet payload "repository" (.dict [])
  pyGet repoV "name" (.str "unknown")

/-- Lines 49-50 of `webhook_receiver.py`: `payload.get('ref',
'refs/heads/main')`, whose `.startswith` on line 50 raises
`AttributeError` when the value is not a string. -/
def pushRef (payload : PyVal) : Except PyErr String := do
  let refV ← pyGet payload "ref" (.str "refs/heads/main")
  match refV with
  | .str ref => pure ref
  | _ => throw .attributeError

/-- Lines 47-51 of `webhook_receiver.py`: repository name, ref, branch and the
f-string `f"{repository}:{branch}"`. -/
def pushTarget (payload : PyVal) : Except PyErr String := do
  let repository ← repositoryName payload
  let ref ← pushRef payload
  pure (pyStr repository ++ ":" ++ branchOfRef ref)

/-- Lines 53-56 of `webhook_receiver.py`: `head_commit.timestamp`, replaced
by `datetime.utcnow().isoformat() + 'Z'` when falsy. -/
def pushTimestamp (now : String) (payload : PyVal) : Except PyErr PyVal := do
  let hc ← pyGet payload "head_commit" (.dict [])
  let ts ← pyGet hc "timestamp" .none
  if !pyTruthy ts then pure (.str (now ++ "Z")) else pure ts

/-- Line 59 of `webhook_receiver.py`:
`payload.get('head_commit', {}).get('message', 'No commit message')`. -/
def pushSample (payload : PyVal) : Except PyErr PyVal := do
  let hc ← pyGet payload "head_commit" (.dict [])
  pyGet hc "message" (.str "No commit message")

/-- The body of `extract_push_data` (inside its `try`), lines 42-67. -/
def extract_push_data_body (now : String) (payload : PyVal) : Except PyErr Rec := do
  let author ← pushAuthor payload
  let pushed_to ← pushTarget payload
  let onV ← pushTimestamp now payload
  let sample ← pushSample payload
  pure [("author", author), ("pushed_to", .str pushed_to), ("on", onV),
        ("timestamp", .dt now), ("sample", sample)]

/-- `extract_push_data`, lines 39-70: the `try/except` wrapper turns any
internal exception into the sentinel `None`. -/
def extract_push_data (now : String) (payload : PyVal) : Option Rec :=
  match extract_push_data_body now payload with
  | .ok r => some r
  | .error _ => Option.none

/-- Line 86 of `webhook_receiver.py`: the short-circuit
`pr.get('created_at') or pr.get('updated_at')` given the already-fetched
`created_at` value. -/
def prRawTimestamp (pr created : PyVal) : Except PyErr PyVal :=
  if pyTruthy created then pure created else pyGet pr "updated_at" .none

/-- Line 80 of `webhook_receiver.py`: `pr.get('base', {}).get('ref', 'main')`. -/
def prBaseBranch (pr : PyVal) : Except PyErr PyVal := do
  let base ← pyGet pr "base" (.dict [])
  pyGet base "ref" (.str "main")

/-- The body of `extract_pull_request_data` (inside its `try`), lines 75-98,
with accesses in source order. -/
def extract_pull_request_data_body (now : String) (payload : PyVal) :
    Except PyErr Rec := do
  let action ← pyGet payload "action" (.str "unknown")
  let pr ← pyGet payload "pull_request" (.dict [])
  let user ← pyGet pr "user" (.dict [])
  let author ← pyGet user "login" (.str "unknown")
  let repository ← repositoryName payload
  let base_branch ← prBaseBranch pr
  let head ← pyGet pr "head" (.dict [])
  let _head_branch ← pyGet head "ref" (.str "unknown")
  let pushed_to := pyStr repository ++ ":" ++ pyStr base_branch
  let created ← pyGet pr "created_at" .none
  let ts ← prRawTimestamp pr created
  let onV := if !pyTruthy ts then PyVal.str (now ++ "Z") else ts
  let number ← pyGet pr "number" (.str "unknown")
  let title ← pyGet pr "title" (.str "No title")
  let sample := "PR #" ++ pyStr number ++ ": " ++ pyStr title ++ " (" ++ pyStr action ++ ")"
  pure [("author", author), ("pushed_to", .str pushed_to), ("on", onV),
        ("timestamp", .dt now), ("sample", .str sample)]

/-- `extract_pull_request_data`, lines 72-101. -/
def extract_pull_request_data (now : String) (payload : PyVal) : Option Rec :=
  match extract_pull_request_data_body now payload with
  | .ok r => some r
  | .error _ => Option.none

/-- The required string fields, in the fixed order in which
`validate_repository_data` iterates over them. -/
def requiredFields : List String := ["author", "pushed_to", "on", "sample"]

/-- `isinstance(v, str)`. -/
def isPyStr : PyVal → Bool
  | .str _ => true
  | _ => false

/-- The field loop of `validate_repository_data`
(`models/repository_data.py`, lines 92-98). -/
def validateFields (data : Rec) : List String → Bool × String
  | [] => (true, "Valid")
  | f :: fs =>
    match data.lookup f with
    | Option.none => (false, "Missing required field: " ++ f)
    | some v =>
      if !isPyStr v then (false, "Field " ++ f ++ " must be of type str")
      else validateFields data fs

/-- `validate_repository_data`, `models/repository_data.py` lines 81-98. -/
def validate_repository_data (data : Rec) : Bool × String :=
  validateFields data requiredFields

/-- `RepositoryDataModel.insert_repository_data`
(`models/repository_data.py`, lines 22-50) over the list-of-records store
model: sets a default `timestamp`, raises (→ returns no id, store untouched)
on a missing required field, otherwise appends and returns the generated
identifier (modelled as the prior store length). -/
def insert_repository_data (now : String) (store : List Rec) (data : Rec) :
    Option Nat × List Rec :=
  let data := if (data.lookup "timestamp").isSome then data
              else data ++ [("timestamp", .dt now)]
  if requiredFields.all (fun f => (data.lookup f).isSome) then
    (some store.length, store ++ [data])
  else
    (Option.none, store)

/-- The inbound HTTP request as `handle_webhook` reads it: the
`X-Hub-Signature-256` and `X-GitHub-Event` headers, the raw body bytes, and
the parsed JSON body (`request.get_json()`, `Option.none` when absent). -/
structure Request where
  signature : Option String
  event : Option String
  rawBody : List Nat
  json : Option PyVal

/-- An HTTP response: status code and JSON body. -/
structure Response where
  status : Nat
  body : PyVal

/-- f-string rendering of a header value that may be `None`. -/
def headerStr : Option String → String
  | Option.none => "None"
  | some s => s

/-- JSON serialization of a header value that may be `None`. -/
def pyOfHeader : Option String → PyVal
  | Option.none => .none
  | some s => .str s

/-! ### SHA-256 and HMAC (`hashlib.sha256`, `hmac.new(..., hashlib.sha256)`)

Bytes are `Nat`s below 256 and 32-bit words are `Nat`s below `2 ^ 32`, with
explicit `% 2 ^ 32` wherever overflow matters. -/

/-- `2 ^ 32`, the word modulus. -/
def w32 : Nat := 4294967296

/-- 32-bit right rotation. -/
def rotr32 (x n : Nat) : Nat := ((x >>> n) ||| (x <<< (32 - n))) % w32

/-- 32-bit complement (valid for `x < 2 ^ 32`). -/
def not32 (x : Nat) : Nat := 4294967295 - x

/-- Big-endian byte rendering of `x` in `n` bytes. -/
def beBytes (n x : Nat) : List Nat :=
  (List.range n).map fun i => (x >>> (8 * (n - 1 - i))) % 256

/-- The SHA-256 round constants. -/
def shaK : List Nat :=
  [1116352408, 1899447441, 3049323471, 3921009573, 961987163,
   1508970993, 2453635748, 2870763221, 3624381080, 310598401,
   607225278, 1426881987, 1925078388, 2162078206, 2614888103,
   3248222580, 3835390401, 4022224774, 264347078, 604807628,
   770255983, 1249150122, 1555081692, 1996064986, 2554220882,
   2821834349, 2952996808, 3210313671, 3336571891, 3584528711,
   113926993, 338241895, 666307205, 773529912, 1294757372,
   1396182291, 1695183700, 1986661051, 2177026350, 2456956037,
   2730485921, 2820302411, 3259730800, 3345764771, 3516065817,
   3600352804, 4094571909, 275423344, 430227734, 506948616,
   659060556, 883997877, 958139571, 1322822218, 1537002063,
   1747873779, 1955562222, 2024104815, 2227730452, 2361852424,
   2428436474, 2756734187, 3204031479, 3329325298]

/-- The SHA-256 initial hash state. -/
def shaH0 : List Nat :=
  [1779033703, 3144134277, 1013904242, 2773480762, 1359893119,
   2600822924, 528734635, 1541459225]

/-- SHA-256 padding: append `0x80`, zero bytes to 56 mod 64, then the
64-bit big-endian bit length. -/
def sha256Pad (msg : List Nat) : List Nat :=
  msg ++ [0x80] ++ List.replicate ((119 - msg.length % 64) % 64) 0
      ++ beBytes 8 (msg.length * 8)

/-- Big-endian 4-byte grouping of a block into words. -/
def toWords : List Nat → List Nat
  | b0 :: b1 :: b2 :: b3 :: rest =>
    (((b0 * 256 + b1) * 256 + b2) * 256 + b3) :: toWords rest
  | _ => []

/-- Message-schedule extension: `n` more words from the last 16. -/
def extendSchedule : Nat → Array Nat → Array Nat
  | 0, w => w
  | n + 1, w =>
    let i := w.size
    let x15 := w.getD (i - 15) 0
    let x2 := w.getD (i - 2) 0
    let s0 := (rotr32 x15 7) ^^^ (rotr32 x15 18) ^^^ (x15 >>> 3)
    let s1 := (rotr32 x2 17) ^^^ (rotr32 x2 19) ^^^ (x2 >>> 10)
    extendSchedule n (w.push ((w.getD (i - 16) 0 + s0 + w.getD (i - 7) 0 + s1) % w32))

/-- One SHA-256 compression round on the state `[a, b, c, d, e, f, g, h]`. -/
def shaRound (st : List Nat) (k w : Nat) : List Nat :=
  match st with
  | [a, b, c, d, e, f, g, h] =>
    let s1 := (rotr32 e 6) ^^^ (rotr32 e 11) ^^^ (rotr32 e 25)
    let ch := (e &&& f) ^^^ ((not32 e) &&& g)
    let t1 := (h + s1 + ch + k + w) % w32
    let s0 := (rotr32 a 2) ^^^ (rotr32 a 13) ^^^ (rotr32 a 22)
    let maj := (a &&& b) ^^^ (a &&& c) ^^^ (b &&& c)
    let t2 := (s0 + maj) % w32
    [(t1 + t2) % w32, a, b, c, (d + t1) % w32, e, f, g]
  | _ => st

/-- SHA-256 compression of one 64-byte block into the running hash. -/
def compressBlock (h : List Nat) (block : List Nat) : List Nat :=
  let w := extendSchedule 48 (Array.mk (toWords block))
  let st := (List.zip shaK w.toList).foldl (fun st kw => shaRound st kw.1 kw.2) h
  List.zipWith (fun x y => (x + y) % w32) h st

/-- Split a byte list into 64-byte chunks. -/
def chunks64 : List Nat → List (List Nat)
  | [] => []
  | x :: xs => (x :: xs.take 63) :: chunks64 (xs.drop 63)
termination_by l => l.length
decreasing_by simp; omega

/-- SHA-256 of a byte list. -/
def sha256 (msg : List Nat) : List Nat :=
  ((chunks64 (sha256Pad msg)).foldl compressBlock shaH0).flatMap (beBytes 4)

/-- UTF-8 encoding of a string (`str.encode('utf-8')`). -/
def utf8Bytes (s : String) : List Nat :=
  s.data.flatMap fun c =>
    let n := c.toNat
    if n < 0x80 then [n]
    else if n < 0x800 then
      [0xC0 ||| (n >>> 6), 0x80 ||| (n &&& 0x3F)]
    else if n < 0x10000 then
      [0xE0 ||| (n >>> 12), 0x80 ||| ((n >>> 6) &&& 0x3F), 0x80 ||| (n &&& 0x3F)]
    else
      [0xF0 ||| (n >>> 18), 0x80 ||| ((n >>> 12) &&& 0x3F),
       0x80 ||| ((n >>> 6) &&& 0x3F), 0x80 ||| (n &&& 0x3F)]

/-- HMAC-SHA256 (`hmac.new(key, msg, hashlib.sha256)`): block size 64. -/
def hmacSha256 (key msg : List Nat) : List Nat :=
  let key := if key.length > 64 then sha256 key else key
  let key := key ++ List.replicate (64 - key.length) 0
  sha256 ((key.map (· ^^^ 0x5c)) ++ sha256 ((key.map (· ^^^ 0x36)) ++ msg))

/-- Lowercase hex digit. -/
def hexDigitChar (n : Nat) : Char :=
  if n < 10 then Char.ofNat (48 + n) else Char.ofNat (87 + n)

/-- Lowercase hex encoding of a byte list (`.hexdigest()`). -/
def hexDigest (bs : List Nat) : String :=
  String.join (bs.map fun b => String.mk [hexDigitChar (b / 16), hexDigitChar (b % 16)])

/-- `verify_signature`, `webhook_receiver.py` lines 21-37.  The secret is the
`GITHUB_WEBHOOK_SECRET` environment value, `""` when unset.  A missing or
empty header is falsy and short-circuits to `False` *before* the secret is
consulted; `hmac.compare_digest` is exact string equality. -/
def verify_signature (secret : String) (payload_body : List Nat)
    (signature_header : Option String) : Bool :=
  match signature_header with
  | Option.none => false
  | some sig =>
    if sig.isEmpty then false
    else if secret.isEmpty then true
    else ("sha256=" ++ hexDigest (hmacSha256 (utf8Bytes secret) payload_body)) == sig

/-- The tail of `handle_webhook` after dispatch (lines 129-148): reject the
sentinel / falsy extraction result, validate, insert, and report. -/
def finishEvent (now : String) (store : List Rec) (eventType : Option String)
    (extracted : Option Rec) : Response × List Rec :=
  match extracted with
  | Option.none =>
    (⟨400, .dict [("error", .str "Failed to extract data from payload")]⟩, store)
  | some data =>
    if data.isEmpty then
      (⟨400, .dict [("error", .str "Failed to extract data from payload")]⟩, store)
    else
      let vm := validate_repository_data data
      if !vm.1 then
        (⟨400, .dict [("error", .str ("Invalid data: " ++ vm.2))]⟩, store)
      else
        match insert_repository_data now store data with
        | (some rid, store') =>
          (⟨200, .dict [("message", .str "Webhook processed successfully"),
                        ("id", .str (toString rid)),
                        ("event_type", pyOfHeader eventType)]⟩, store')
        | (Option.none, _) =>
          (⟨500, .dict [("error", .str "Failed to store data")]⟩, store)

/-- `handle_webhook`, `webhook_receiver.py` lines 103-152, as a transformer
of the store state. -/
def handle_webhook (secret now : String) (store : List Rec) (req : Request) :
    Response × List Rec :=
  if !verify_signature secret req.rawBody req.signature then
    (⟨401, .dict [("error", .str "Invalid signature")]⟩, store)
  else
    match req.json with
    | Option.none => (⟨400, .dict [("error", .str "No payload received")]⟩, store)
    | some payload =>
      if !pyTruthy payload then
        (⟨400, .dict [("error", .str "No payload received")]⟩, store)
      else if req.event = some "push" then
        finishEvent now store req.event (extract_push_data now payload)
      else if req.event = some "pull_request" then
        finishEvent now store req.event (extract_pull_request_data now payload)
      else
        (⟨200, .dict [("message",
          .str ("Event type " ++ headerStr req.event ++ " not supported"))]⟩, store)

/-- Whether a field is missing or not a string in a record — the failure
condition of the validator on one field. -/
def fieldFails (data : Rec) (f : String) : Bool :=
  match data.lookup f with
  | Option.none => true
  | some v => !isPyStr v

/-- A push payload whose `head_commit.message` is present but empty. -/
def emptyMessagePayload : PyVal :=
  .dict [("head_commit", .dict [("message", .str "")])]

/-- The record the push extractor builds from `emptyMessagePayload` at
clock `"2024-06-01T00:00:00"`. -/
def emptyMessageRec : Rec :=
  [("author", .str "unknown"), ("pushed_to", .str "unknown:main"),
   ("on", .str "2024-06-01T00:00:00Z"), ("timestamp", .dt "2024-06-01T00:00:00"),
   ("sample", .str "")]

/-- A record whose `on` field holds an integer, earlier fields being fine. -/
def intOnRec : Rec :=
  [("author", .str "a"), ("pushed_to", .str "p"), ("on", .int 5),
   ("sample", .str "s")]

/-- A request with an unsupported event type. -/
def issuesReq : Request :=
  ⟨some "sig", some "issues", [], some (.dict [("zen", .str "ok")])⟩

/-- The C8 end-to-end push payload. -/
def endToEndPayload : PyVal :=
  .dict [("ref", .str "refs/heads/main"),
         ("repository", .dict [("name", .str "r")]),
         ("pusher", .dict [("name", .str "u")]),
         ("head_commit", .dict [("message", .str "m"),
                                ("timestamp", .str "2024-01-01T00:00:00Z")])]

/-- The C8 end-to-end request: push event, some signature header present,
posted against an unset secret. -/
def endToEndReq : Request :=
  ⟨some "sig", some "push", [], some endToEndPayload⟩

/-- The record C8 expects to be stored. -/
def endToEndRec : Rec :=
  [("author", .str "u"), ("pushed_to", .str "r:main"),
   ("on", .str "2024-01-01T00:00:00Z"), ("timestamp", .dt "T"),
   ("sample", .str "m")]

/-- A push payload whose branch name contains a colon. -/
def colonBranchPayload : PyVal :=
  .dict [("repository", .dict [("name", .str "r")]),
         ("ref", .str "refs/heads/a:b")]

/-- The record the push extractor builds from `colonBranchPayload`. -/
def colonBranchRec : Rec :=
  [("author", .str "unknown"), ("pushed_to", .str "r:a:b"),
   ("on", .str "TZ"), ("timestamp", .dt "T"), ("sample", .str "No commit message")]

/-- A push payload with `pusher.name = ""` and `head_commit.author.name = "A"`. -/
def emptyPusherPayload : PyVal :=
  .dict [("pusher", .dict [("name", .str "")]),
         ("head_commit", .dict [("author", .dict [("name", .str "A")])])]

/-- The record the push extractor builds from `emptyPusherPayload` at
clock `"T"`. -/
def emptyPusherRec : Rec :=
  [("author", .str "A"), ("pushed_to", .str "unknown:main"),
   ("on", .str "TZ"), ("timestamp", .dt "T"),
   ("sample", .str "No commit message")]

/-- The record the push extractor builds from the empty dict at clock `"T"`. -/
def defaultPushRec : Rec :=
  [("author", .str "unknown"), ("pushed_to", .str "unknown:main"),
   ("on", .str "TZ"), ("timestamp", .dt "T"),
   ("sample", .str "No commit message")]

/-! ### General lemmas -/

/-- Inversion of a successful `Except` bind. -/
theorem bind_ok {α β : Type} {e : Except PyErr α} {f : α → Except PyErr β} {r : β}
    (h : (e >>= f) = .ok r) : ∃ v, e = .ok v ∧ f v = .ok r := by
  cases e with
  | ok v => exact ⟨v, rfl, by simpa [Bind.bind, Except.bind] using h⟩
  | error e => simp [Bind.bind, Except.bind] at h

/-- `splitChars` never returns the empty list. -/
theorem splitChars_ne_nil (sep : Char) (l : List Char) : splitChars sep l ≠ [] := by
  cases l with
  | nil => simp [splitChars]
  | cons c cs =>
    simp only [splitChars]
    split <;> split <;> simp

/-- On separator-free input, `splitChars` returns one group: the input. -/
theorem splitChars_no_sep (sep : Char) (l : List Char) (h : ∀ c ∈ l, c ≠ sep) :
    splitChars sep l = [l] := by
  induction l with
  | nil => rfl
  | cons c cs ih =>
    have hc : c ≠ sep := h c (by simp)
    have hcs := ih (fun x hx => h x (by simp [hx]))
    simp [splitChars, hcs, hc]

/-- Splitting an input that contains a separator yields at least two groups. -/
theorem splitChars_append_sep_two_le (sep : Char) (l r : List Char) :
    2 ≤ (splitChars sep (l ++ sep :: r)).length := by
  induction l with
  | nil =>
    simp only [List.nil_append, splitChars]
    split <;> split <;> simp_all
  | cons c cs ih =>
    simp only [List.cons_append, splitChars]
    split
    · next heq => exact absurd heq (splitChars_ne_nil _ _)
    · next g gs heq =>
      rw [List.append_eq] at heq
      rw [heq] at ih
      split
      all_goals simp at ih ⊢
      all_goals omega

/-- The last group of a split only depends on the input after the last
separator: prepending `l ++ [sep]` does not change it. -/
theorem splitChars_getLast_append_sep (sep : Char) (l r : List Char) :
    (splitChars sep (l ++ sep :: r)).getLast? = (splitChars sep r).getLast? := by
  induction l with
  | nil =>
    simp only [List.nil_append, splitChars]
    split
    · next heq => exact absurd heq (splitChars_ne_nil sep r)
    · next g gs heq =>
      rw [heq]
      split <;> simp_all [List.getLast?_cons_cons]
  | cons c cs ih =>
    simp only [List.cons_append, splitChars]
    split
    · next heq => exact absurd heq (splitChars_ne_nil _ _)
    · next g gs heq =>
      have h2 := splitChars_append_sep_two_le sep cs r
      rw [List.append_eq] at heq
      rw [heq] at h2 ih
      rcases gs with _ | ⟨g2, gs2⟩
      · simp at h2
      · rw [← ih]
        split <;> simp [List.getLast?_cons_cons]

/-- A string is a `startswith`-witness of itself followed by anything. -/
theorem isPreOf_self_append (p r : List Char) : isPreOf p (p ++ r) = true := by
  induction p with
  | nil => rfl
  | cons c cs ih => simp [isPreOf, ih]

/-- No group produced by `splitChars` contains the separator. -/
theorem splitChars_groups_no_sep (sep : Char) (l : List Char) :
    ∀ g ∈ splitChars sep l, ∀ c ∈ g, c ≠ sep := by
  induction l with
  | nil =>
    intro g hg
    simp only [splitChars, List.mem_singleton] at hg
    subst hg
    simp
  | cons c0 cs ih =>
    intro g hg c hc
    simp only [splitChars] at hg
    rcases heq : splitChars sep cs with _ | ⟨g1, gs⟩
    · exact absurd heq (splitChars_ne_nil sep cs)
    · rw [heq] at hg
      have hg' : g ∈ (if c0 = sep then [] :: g1 :: gs else (c0 :: g1) :: gs) := hg
      by_cases hc0 : c0 = sep
      · rw [if_pos hc0] at hg'
        rcases List.mem_cons.mp hg' with rfl | hg2
        · simp at hc
        · exact ih g (by rw [heq]; exact hg2) c hc
      · rw [if_neg hc0] at hg'
        rcases List.mem_cons.mp hg' with rfl | hg2
        · rcases List.mem_cons.mp hc with rfl | hc2
          · exact hc0
          · exact ih g1 (by rw [heq]; exact List.mem_cons_self ..) c hc2
        · exact ih g (by rw [heq]; exact List.mem_cons_of_mem g1 hg2) c hc

/-- The per-colon count of the `"{repository}:{branch}"` splice. -/
theorem count_colon_append (x y : String) :
    (x ++ ":" ++ y).data.count ':' =
      x.data.count ':' + 1 + y.data.count ':' := by
  rw [String.data_append, String.data_append]
  have hc : (":" : String).data = [':'] := rfl
  rw [hc, List.count_append, List.count_append]
  simp

/-! ### C1 -/

/-- C1: the claim says that with the webhook secret empty/unset, `verify`
returns true for every signature header including an absent one.  The code
tests `if not signature_header: return False` *before* consulting the
secret, so with the secret unset and the header absent (or empty) it
returns false — while the repository's own tests post webhooks without any
`X-Hub-Signature-256` header and expect success, and the code's comment
says verification is skipped when no secret is set.  This theorem evaluates
the embedded code at the failing inputs. -/
theorem verify_signature_disabled_check_order :
    verify_signature "" [] Option.none = false ∧
    verify_signature "" [] (some "") = false ∧
    verify_signature "" [] (some "sha256=anything") = true :=
  ⟨rfl, rfl, rfl⟩

/-! ### C2 -/

/-- C2 counterexample: for `ref = "refs/heads/feature/x"` (which is
`refs/heads/` followed by `X = "feature/x"`), the code extracts the branch
`"x"`, not the entire suffix `"feature/x"` the claim demands. -/
theorem branch_extraction_counterexample :
    "refs/heads/feature/x" = "refs/heads/" ++ "feature/x" ∧
    branchOfRef "refs/heads/feature/x" = "x" ∧
    ("x" : String) ≠ "feature/x" :=
  ⟨rfl, rfl, by decide⟩

/-- C2 (amended): for a ref of the form `refs/heads/X` the extracted branch
is the last `/`-separated segment of `X`, and it equals `X` itself exactly
when `X` contains no further slash; for a ref not starting with
`refs/heads/`, the branch is the ref verbatim. -/
theorem branch_extraction_amended (ref X : String) :
    (ref = "refs/heads/" ++ X →
      branchOfRef ref = (pySplit '/' X).getLastD "" ∧
      (branchOfRef ref = X ↔ ∀ c ∈ X.data, c ≠ '/')) ∧
    (pyStartswith ref "refs/heads/" = false → branchOfRef ref = ref) := by
  constructor
  · intro href
    subst href
    have hstart : pyStartswith ("refs/heads/" ++ X) "refs/heads/" = true := by
      have : ("refs/heads/" ++ X).data = "refs/heads/".data ++ X.data :=
        String.data_append ..
      simp only [pyStartswith, this]
      exact isPreOf_self_append ..
    have hdata : ("refs/heads/" ++ X).data
        = ['r','e','f','s','/','h','e','a','d','s'] ++ '/' :: X.data := by
      simp [String.data_append]
    have hlast : (splitChars '/' ("refs/heads/" ++ X).data).getLast?
        = (splitChars '/' X.data).getLast? := by
      rw [hdata]
      exact splitChars_getLast_append_sep ..
    have hbranch : branchOfRef ("refs/heads/" ++ X)
        = (pySplit '/' X).getLastD "" := by
      simp only [branchOfRef, hstart, if_true, pySplit,
        List.getLastD_eq_getLast?, List.getLast?_map, hlast]
    refine ⟨hbranch, ?_, ?_⟩
    · intro hbx c hcX
      rw [hbranch] at hbx
      rcases hg : (splitChars '/' X.data).getLast? with _ | g
      · rw [List.getLast?_eq_none_iff] at hg
        exact absurd hg (splitChars_ne_nil '/' X.data)
      · have hgmem : g ∈ splitChars '/' X.data := by
          obtain ⟨hne, hg2⟩ := List.mem_getLast?_eq_getLast (Option.mem_def.mpr hg)
          rw [hg2]
          exact List.getLast_mem hne
        rw [pySplit, List.getLastD_eq_getLast?, List.getLast?_map, hg] at hbx
        simp only [Option.map_some', Option.getD_some] at hbx
        have hXd : X.data = g := congrArg String.data hbx.symm
        rw [hXd] at hcX
        exact splitChars_groups_no_sep '/' X.data g hgmem c hcX
    · intro hX
      rw [hbranch, pySplit, splitChars_no_sep '/' X.data hX]
      rfl
  · intro h
    simp [branchOfRef, h]

/-- Witness for C2 at a concrete slashed ref and a concrete verbatim ref. -/
theorem branch_extraction_amended_witness :
    (branchOfRef "refs/heads/feature/x" = (pySplit '/' "feature/x").getLastD "" ∧
      (branchOfRef "refs/heads/feature/x" = "feature/x" ↔
        ∀ c ∈ "feature/x".data, c ≠ '/')) ∧
    branchOfRef "main" = "main" :=
  ⟨(branch_extraction_amended "refs/heads/feature/x" "feature/x").1 rfl,
   (branch_extraction_amended "main" "main").2 rfl⟩

/-! ### Shape of successful extractions -/

/-- A successful `pushTarget` is a repository string, a colon, and a branch
string. -/
theorem pushTarget_ok_shape (p : PyVal) (t : String) (h : pushTarget p = .ok t) :
    ∃ x y, t = x ++ ":" ++ y := by
  unfold pushTarget at h
  obtain ⟨repoV, h1, h⟩ := bind_ok h
  obtain ⟨ref, h2, h⟩ := bind_ok h
  simp only [pure, Except.pure, Except.ok.injEq] at h
  exact ⟨pyStr repoV, branchOfRef ref, h.symm⟩

/-- A successful `pushTimestamp` is either the synthesized clock string or a
truthy payload value. -/
theorem pushTimestamp_ok_shape (now : String) (p : PyVal) (v : PyVal)
    (h : pushTimestamp now p = .ok v) :
    v = .str (now ++ "Z") ∨ pyTruthy v = true := by
  unfold pushTimestamp at h
  obtain ⟨hc, h1, h⟩ := bind_ok h
  obtain ⟨ts, h2, h⟩ := bind_ok h
  by_cases ht : pyTruthy ts
  · right
    simp only [ht, Bool.not_true, Bool.false_eq_true, if_false, pure,
      Except.pure, Except.ok.injEq] at h
    rw [← h]; exact ht
  · left
    simp only [Bool.not_eq_true] at ht
    simp only [ht, Bool.not_false, if_true, pure, Except.pure,
      Except.ok.injEq] at h
    exact h.symm

/-- Structure of a record produced by a successful push extraction. -/
theorem extract_push_body_shape (now : String) (p : PyVal) (r : Rec)
    (h : extract_push_data_body now p = .ok r) :
    ∃ a t onv s, pushAuthor p = .ok a ∧ pushTarget p = .ok t ∧
      pushTimestamp now p = .ok onv ∧ pushSample p = .ok s ∧
      r = [("author", a), ("pushed_to", .str t), ("on", onv),
           ("timestamp", .dt now), ("sample", s)] := by
  unfold extract_push_data_body at h
  obtain ⟨a, h1, h⟩ := bind_ok h
  obtain ⟨t, h2, h⟩ := bind_ok h
  obtain ⟨onv, h3, h⟩ := bind_ok h
  obtain ⟨s, h4, h⟩ := bind_ok h
  simp only [pure, Except.pure, Except.ok.injEq] at h
  exact ⟨a, t, onv, s, h1, h2, h3, h4, h.symm⟩

/-- Structure of a record produced by a successful pull-request
extraction. -/
theorem extract_pr_body_shape (now : String) (p : PyVal) (r : Rec)
    (h : extract_pull_request_data_body now p = .ok r) :
    ∃ a x y onv smp,
      r = [("author", a), ("pushed_to", .str (x ++ ":" ++ y)), ("on", onv),
           ("timestamp", .dt now), ("sample", .str smp)] ∧
      (onv = .str (now ++ "Z") ∨ pyTruthy onv = true) := by
  unfold extract_pull_request_data_body at h
  obtain ⟨action, h1, h⟩ := bind_ok h
  obtain ⟨pr, h2, h⟩ := bind_ok h
  obtain ⟨user, h3, h⟩ := bind_ok h
  obtain ⟨a, h4, h⟩ := bind_ok h
  obtain ⟨repo, h5, h⟩ := bind_ok h
  obtain ⟨bb, h6, h⟩ := bind_ok h
  obtain ⟨head, h7, h⟩ := bind_ok h
  obtain ⟨hb, h8, h⟩ := bind_ok h
  obtain ⟨created, h9, h⟩ := bind_ok h
  obtain ⟨ts, h10, h⟩ := bind_ok h
  obtain ⟨number, h11, h⟩ := bind_ok h
  obtain ⟨title, h12, h⟩ := bind_ok h
  simp only [pure, Except.pure, Except.ok.injEq] at h
  refine ⟨a, pyStr repo, pyStr bb, _, _, h.symm, ?_⟩
  by_cases ht : pyTruthy ts
  · right; simp [ht]
  · left; simp only [Bool.not_eq_true] at ht; simp [ht]

/-- Inversion of a successful push extraction into its body. -/
theorem extract_push_some (now : String) (p : PyVal) (r : Rec)
    (h : extract_push_data now p = some r) :
    extract_push_data_body now p = .ok r := by
  unfold extract_push_data at h
  split at h
  · next r' heq => rw [← Option.some.inj h]; exact heq
  · exact absurd h (by simp)

/-- Inversion of a successful pull-request extraction into its body. -/
theorem extract_pr_some (now : String) (p : PyVal) (r : Rec)
    (h : extract_pull_request_data now p = some r) :
    extract_pull_request_data_body now p = .ok r := by
  unfold extract_pull_request_data at h
  split at h
  · next r' heq => rw [← Option.some.inj h]; exact heq
  · exact absurd h (by simp)

/-- What the validator's acceptance says about the five-field record the
extractors build: the four required fields are `str` values. -/
theorem validate_record_fields (a pt onv tsv smp : PyVal)
    (h : (validate_repository_data
      [("author", a), ("pushed_to", pt), ("on", onv), ("timestamp", tsv),
       ("sample", smp)]).1 = true) :
    isPyStr a = true ∧ isPyStr pt = true ∧ isPyStr onv = true ∧
      isPyStr smp = true := by
  simp only [validate_repository_data, requiredFields, validateFields,
    List.lookup] at h
  by_cases ha : isPyStr a <;> by_cases hp : isPyStr pt <;>
    by_cases ho : isPyStr onv <;> by_cases hs : isPyStr smp <;> simp_all

/-- A string ending in a nonempty suffix is nonempty. -/
theorem append_ne_empty_right (x y : String) (hy : y ≠ "") : x ++ y ≠ "" := by
  intro h
  apply hy
  have hd : x.data ++ y.data = [] := by
    have h1 := congrArg String.data h
    rw [String.data_append] at h1
    exact h1
  exact String.ext (List.append_eq_nil.mp hd).2

/-- A string starting with a nonempty prefix is nonempty. -/
theorem append_ne_empty_left (x y : String) (hx : x ≠ "") : x ++ y ≠ "" := by
  intro h
  apply hx
  have hd : x.data ++ y.data = [] := by
    have h1 := congrArg String.data h
    rw [String.data_append] at h1
    exact h1
  exact String.ext (List.append_eq_nil.mp hd).1

/-- A string with a colon spliced into the middle is nonempty. -/
theorem append_colon_ne_empty (x y : String) : x ++ ":" ++ y ≠ "" := by
  intro h
  have hl := congrArg String.length h
  rw [String.length_append, String.length_append] at hl
  have h1 : String.length ":" = 1 := rfl
  have h0 : String.length "" = 0 := rfl
  omega

/-- `isinstance(v, str)` succeeding exposes the underlying string. -/
theorem isPyStr_shape (v : PyVal) (h : isPyStr v = true) : ∃ s, v = .str s := by
  cases v <;> simp [isPyStr] at h ⊢

/-- Shape of any record either extractor returns: the five fields in order,
with `pushed_to` a string containing a spliced colon and `on` either a
truthy payload value or the synthesized clock string. -/
theorem extract_some_shape (now : String) (p : PyVal) (r : Rec)
    (h : extract_push_data now p = some r ∨
      extract_pull_request_data now p = some r) :
    ∃ a x y onv smp, r = [("author", a), ("pushed_to", .str (x ++ ":" ++ y)),
      ("on", onv), ("timestamp", .dt now), ("sample", smp)] ∧
      (onv = .str (now ++ "Z") ∨ pyTruthy onv = true) := by
  rcases h with h | h
  · have hb := extract_push_some now p r h
    obtain ⟨a, t, onv, smp, _, ht, hon, _, rfl⟩ :=
      extract_push_body_shape now p r hb
    obtain ⟨x, y, rfl⟩ := pushTarget_ok_shape p t ht
    exact ⟨a, x, y, onv, smp, rfl, pushTimestamp_ok_shape now p onv hon⟩
  · have hb := extract_pr_some now p r h
    obtain ⟨a, x, y, onv, smp, rfl, hon⟩ := extract_pr_body_shape now p r hb
    exact ⟨a, x, y, onv, .str smp, rfl, hon⟩

/-! ### C3 -/

/-- C3 counterexample: a push payload whose `head_commit.message` is the
empty string produces a record that the validator accepts (all four fields
are strings) yet whose `sample` field is empty — the claim's "non-empty"
invariant fails on the ingestion path. -/
theorem record_fields_counterexample :
    extract_push_data "2024-06-01T00:00:00" emptyMessagePayload
      = some emptyMessageRec ∧
    (validate_repository_data emptyMessageRec).1 = true ∧
    emptyMessageRec.lookup "sample" = some (.str "") :=
  ⟨rfl, rfl, rfl⟩

/-- C3 (amended): every record produced by an extractor and accepted by the
validator has string values in `author`, `pushed_to`, `on` and `sample`;
`pushed_to` and `on` are moreover non-empty, while `author` and `sample`
can be empty strings when the payload supplies them as such. -/
theorem record_fields_amended (now : String) (p : PyVal) (r : Rec)
    (h : extract_push_data now p = some r ∨ extract_pull_request_data now p = some r)
    (hv : (validate_repository_data r).1 = true) :
    (∃ s, r.lookup "author" = some (.str s)) ∧
    (∃ s, r.lookup "pushed_to" = some (.str s) ∧ s ≠ "") ∧
    (∃ s, r.lookup "on" = some (.str s) ∧ s ≠ "") ∧
    (∃ s, r.lookup "sample" = some (.str s)) := by
  obtain ⟨a, x, y, onv, smp, rfl, hon⟩ := extract_some_shape now p r h
  obtain ⟨ha, -, ho, hs⟩ := validate_record_fields _ _ _ _ _ hv
  obtain ⟨sa, rfl⟩ := isPyStr_shape a ha
  obtain ⟨so, rfl⟩ := isPyStr_shape onv ho
  obtain ⟨ss, rfl⟩ := isPyStr_shape smp hs
  refine ⟨⟨sa, by simp [List.lookup]⟩,
    ⟨x ++ ":" ++ y, by simp [List.lookup], append_colon_ne_empty x y⟩,
    ⟨so, by simp [List.lookup], ?_⟩,
    ⟨ss, by simp [List.lookup]⟩⟩
  rcases hon with hon | hon
  · rw [PyVal.str.inj hon]
    exact append_ne_empty_right now "Z" (by decide)
  · simp only [pyTruthy] at hon
    intro he
    rw [he] at hon
    exact absurd hon (by decide)

/-- Witness for C3 at the empty push payload. -/
theorem record_fields_amended_witness :
    (∃ s, defaultPushRec.lookup "author" = some (.str s)) ∧
    (∃ s, defaultPushRec.lookup "pushed_to" = some (.str s) ∧ s ≠ "") ∧
    (∃ s, defaultPushRec.lookup "on" = some (.str s) ∧ s ≠ "") ∧
    (∃ s, defaultPushRec.lookup "sample" = some (.str s)) :=
  record_fields_amended "T" (.dict []) defaultPushRec (Or.inl rfl) rfl

/-! ### C4 -/

/-- C4: with a secret configured and a (nonempty) signature header present,
`verify` returns true exactly when the header equals `"sha256="` followed by
the lowercase hex HMAC-SHA256 of the body keyed by the secret; consequently
a tampered body whose digest differs from the signed one is rejected. -/
theorem verify_signature_exact_match (secret : String) (body : List Nat)
    (sig : String) (hs : secret ≠ "") (hh : sig ≠ "") :
    (verify_signature secret body (some sig) = true ↔
      sig = "sha256=" ++ hexDigest (hmacSha256 (utf8Bytes secret) body)) ∧
    (∀ body' : List Nat,
      hexDigest (hmacSha256 (utf8Bytes secret) body')
          ≠ hexDigest (hmacSha256 (utf8Bytes secret) body) →
      verify_signature secret body'
        (some ("sha256=" ++ hexDigest (hmacSha256 (utf8Bytes secret) body)))
          = false) := by
  have hsig : sig.isEmpty = false := by
    cases he : sig.isEmpty
    · rfl
    · exact absurd ((String.isEmpty_iff _).mp he) hh
  have hsec : secret.isEmpty = false := by
    cases he : secret.isEmpty
    · rfl
    · exact absurd ((String.isEmpty_iff _).mp he) hs
  constructor
  · simp only [verify_signature, hsig, hsec, Bool.false_eq_true, if_false,
      beq_iff_eq]
    exact eq_comm
  · intro body' hd
    have hne : ("sha256=" ++ hexDigest (hmacSha256 (utf8Bytes secret) body)).isEmpty
        = false := by
      cases he : ("sha256=" ++ hexDigest (hmacSha256 (utf8Bytes secret) body)).isEmpty
      · rfl
      · exact absurd ((String.isEmpty_iff _).mp he)
          (append_ne_empty_left "sha256=" _ (by decide))
    simp only [verify_signature, hne, hsec, Bool.false_eq_true, if_false,
      beq_eq_false_iff_ne, ne_eq]
    intro h
    apply hd
    have hdata := congrArg String.data h
    rw [String.data_append, String.data_append] at hdata
    exact String.ext (List.append_cancel_left hdata)

/-- Witness for C4 at a concrete secret, body and header. -/
theorem verify_signature_exact_match_witness :
    (verify_signature "k" [] (some "x") = true ↔
      "x" = "sha256=" ++ hexDigest (hmacSha256 (utf8Bytes "k") [])) ∧
    (∀ body' : List Nat,
      hexDigest (hmacSha256 (utf8Bytes "k") body')
          ≠ hexDigest (hmacSha256 (utf8Bytes "k") []) →
      verify_signature "k" body'
        (some ("sha256=" ++ hexDigest (hmacSha256 (utf8Bytes "k") [])))
          = false) :=
  verify_signature_exact_match "k" [] "x" (by decide) (by decide)

/-! ### C5 -/

/-- The validator's field loop returns `Valid` when no listed field fails,
and otherwise reports the first failing field in list order, with the
missing-field message when the field is absent and the type message when it
is present with a non-string value. -/
theorem validateFields_first_failure (data : Rec) (fs : List String) :
    (fs.find? (fieldFails data) = Option.none →
      validateFields data fs = (true, "Valid")) ∧
    (∀ f, fs.find? (fieldFails data) = some f →
      validateFields data fs =
        (false, if (data.lookup f).isNone then "Missing required field: " ++ f
                else "Field " ++ f ++ " must be of type str")) := by
  induction fs with
  | nil => exact ⟨fun _ => rfl, fun f h => by simp [List.find?] at h⟩
  | cons f0 fs ih =>
    cases hf : fieldFails data f0 with
    | true =>
      refine ⟨fun h => ?_, fun f h => ?_⟩
      · rw [List.find?_cons_of_pos _ hf] at h
        exact absurd h (by simp)
      · rw [List.find?_cons_of_pos _ hf] at h
        obtain rfl : f0 = f := Option.some.inj h
        unfold fieldFails at hf
        unfold validateFields
        cases hl : data.lookup f0 with
        | none => simp [hl]
        | some v =>
          rw [hl] at hf
          simp at hf
          simp [hl, hf]
    | false =>
      have hnf : ¬ fieldFails data f0 = true := by simp [hf]
      refine ⟨fun h => ?_, fun f h => ?_⟩ <;>
        rw [List.find?_cons_of_neg _ hnf] at h
      · have hv := ih.1 h
        unfold fieldFails at hf
        unfold validateFields
        cases hl : data.lookup f0 with
        | none => rw [hl] at hf; simp at hf
        | some v =>
          rw [hl] at hf
          simp only [hl]
          simp only [Bool.not_eq_true'] at hf
          simp [hf, hv]
      · have hv := ih.2 f h
        unfold fieldFails at hf
        unfold validateFields
        cases hl : data.lookup f0 with
        | none => rw [hl] at hf; simp at hf
        | some v =>
          rw [hl] at hf
          simp only [hl]
          simp only [Bool.not_eq_true'] at hf
          simp [hf, hv]

/-- C5: the validator checks `author`, `pushed_to`, `on`, `sample` in that
fixed order; it accepts when none fails, and otherwise reports the first
field in that order that is missing or not a string, naming it in the
reason. -/
theorem validator_first_failure (data : Rec) :
    (requiredFields.find? (fieldFails data) = Option.none →
      validate_repository_data data = (true, "Valid")) ∧
    (∀ f, requiredFields.find? (fieldFails data) = some f →
      validate_repository_data data =
        (false, if (data.lookup f).isNone then "Missing required field: " ++ f
                else "Field " ++ f ++ " must be of type str")) :=
  validateFields_first_failure data requiredFields

/-- Witness for C5: a record whose `on` field holds the integer `5` (and
whose earlier fields are fine) is rejected with the reason naming `on`. -/
theorem validator_first_failure_witness :
    validate_repository_data intOnRec = (false, "Field on must be of type str") :=
  (validator_first_failure intOnRec).2 "on" rfl

/-! ### C6 -/

/-- C6: both extractors are total: on every payload each either returns a
record (when its body succeeds) or returns the sentinel `None` (when its
body raises internally) — no exception escapes the boundary. -/
theorem extractors_total (now : String) (p : PyVal) :
    ((∃ e, extract_push_data_body now p = .error e ∧
        extract_push_data now p = Option.none) ∨
     (∃ r, extract_push_data_body now p = .ok r ∧
        extract_push_data now p = some r)) ∧
    ((∃ e, extract_pull_request_data_body now p = .error e ∧
        extract_pull_request_data now p = Option.none) ∨
     (∃ r, extract_pull_request_data_body now p = .ok r ∧
        extract_pull_request_data now p = some r)) := by
  constructor
  · cases h : extract_push_data_body now p with
    | error e => exact Or.inl ⟨e, rfl, by simp [extract_push_data, h]⟩
    | ok r => exact Or.inr ⟨r, rfl, by simp [extract_push_data, h]⟩
  · cases h : extract_pull_request_data_body now p with
    | error e => exact Or.inl ⟨e, rfl, by simp [extract_pull_request_data, h]⟩
    | ok r => exact Or.inr ⟨r, rfl, by simp [extract_pull_request_data, h]⟩


/-! ### C7 -/

/-- C7: a request that passes signature verification and carries a truthy
parsed JSON body but an event type that is neither `push` nor
`pull_request` is acknowledged with status 200 and leaves the store
untouched. -/
theorem unsupported_event_no_mutation (secret now : String) (store : List Rec)
    (req : Request)
    (hv : verify_signature secret req.rawBody req.signature = true)
    (hj : ∃ p, req.json = some p ∧ pyTruthy p = true)
    (h1 : req.event ≠ some "push") (h2 : req.event ≠ some "pull_request") :
    (handle_webhook secret now store req).1.status = 200 ∧
    (handle_webhook secret now store req).2 = store := by
  obtain ⟨p, hp, ht⟩ := hj
  simp [handle_webhook, hv, hp, ht, h1, h2]

/-- Witness for C7 at a concrete `issues` request. -/
theorem unsupported_event_no_mutation_witness :
    (handle_webhook "" "T" [] issuesReq).1.status = 200 ∧
    (handle_webhook "" "T" [] issuesReq).2 = [] :=
  unsupported_event_no_mutation "" "T" [] issuesReq rfl
    ⟨.dict [("zen", .str "ok")], rfl, rfl⟩ (by decide) (by decide)

/-! ### C8 -/

/-- C8: posting the concrete push payload (ref `refs/heads/main`, repository
`r`, pusher `u`, commit message `m`, commit timestamp
`2024-01-01T00:00:00Z`) with a signature header present and the secret
unset yields status 200 and exactly one stored record with author `u`,
pushed_to `r:main`, on `2024-01-01T00:00:00Z` and sample `m`. -/
theorem push_end_to_end :
    (handle_webhook "" "T" [] endToEndReq).1.status = 200 ∧
    (handle_webhook "" "T" [] endToEndReq).2 = [endToEndRec] :=
  ⟨rfl, rfl⟩

/-! ### C9 -/

/-- C9 counterexample: with repository `r` and ref `refs/heads/a:b`, both
extracted normally, the stored `pushed_to` is `r:a:b`, which contains two
colons, not exactly one. -/
theorem pushed_to_colon_counterexample :
    extract_push_data "T" colonBranchPayload = some colonBranchRec ∧
    colonBranchRec.lookup "pushed_to" = some (.str "r:a:b") ∧
    ("r:a:b").data.count ':' ≠ 1 :=
  ⟨rfl, rfl, by decide⟩

/-- The `pushed_to` field of a successful push extraction is exactly the
rendered repository name, a colon, and the branch derived from the ref. -/
theorem extract_push_pushed_to (now : String) (p : PyVal) (r : Rec)
    (repoV : PyVal) (ref : String)
    (hrepo : repositoryName p = .ok repoV) (href : pushRef p = .ok ref)
    (hb : extract_push_data_body now p = .ok r) :
    r.lookup "pushed_to" = some (.str (pyStr repoV ++ ":" ++ branchOfRef ref)) := by
  obtain ⟨a, t, onv, smp, -, ht, -, -, rfl⟩ := extract_push_body_shape now p r hb
  have htv : pushTarget p = .ok (pyStr repoV ++ ":" ++ branchOfRef ref) := by
    unfold pushTarget
    rw [hrepo, href]
    rfl
  rw [htv] at ht
  obtain rfl := Except.ok.inj ht
  simp [List.lookup]

/-- The `pushed_to` field of a successful pull-request extraction is exactly
the rendered repository name, a colon, and the rendered base branch. -/
theorem extract_pr_pushed_to (now : String) (p : PyVal) (r : Rec)
    (pr repoV bb : PyVal)
    (hpr : pyGet p "pull_request" (.dict []) = .ok pr)
    (hrepo : repositoryName p = .ok repoV)
    (hbb : prBaseBranch pr = .ok bb)
    (hb : extract_pull_request_data_body now p = .ok r) :
    r.lookup "pushed_to" = some (.str (pyStr repoV ++ ":" ++ pyStr bb)) := by
  unfold extract_pull_request_data_body at hb
  obtain ⟨action, h1, hb⟩ := bind_ok hb
  obtain ⟨pr', h2, hb⟩ := bind_ok hb
  have hpp : pr = pr' := Except.ok.inj (hpr.symm.trans h2)
  subst hpp
  obtain ⟨user, h3, hb⟩ := bind_ok hb
  obtain ⟨a, h4, hb⟩ := bind_ok hb
  obtain ⟨repo', h5, hb⟩ := bind_ok hb
  have hrr : repoV = repo' := Except.ok.inj (hrepo.symm.trans h5)
  subst hrr
  obtain ⟨bb', h6, hb⟩ := bind_ok hb
  have hbbe : bb = bb' := Except.ok.inj (hbb.symm.trans h6)
  subst hbbe
  obtain ⟨head, h7, hb⟩ := bind_ok hb
  obtain ⟨hbr, h8, hb⟩ := bind_ok hb
  obtain ⟨created, h9, hb⟩ := bind_ok hb
  obtain ⟨ts, h10, hb⟩ := bind_ok hb
  obtain ⟨number, h11, hb⟩ := bind_ok hb
  obtain ⟨title, h12, hb⟩ := bind_ok hb
  simp only [pure, Except.pure, Except.ok.injEq] at hb
  rw [← hb]
  simp [List.lookup]

/-- C9 (amended): `pushed_to` is exactly the rendered repository name, one
spliced colon, and the extracted branch (the rendered base branch for pull
requests), so its colon count is one plus the colons those two components
themselves contain — exactly one when both are colon-free. -/
theorem pushed_to_colon_amended :
    (∀ (now : String) (p : PyVal) (r : Rec) (pt : String) (repoV : PyVal)
        (ref : String),
      extract_push_data now p = some r →
      repositoryName p = .ok repoV → pushRef p = .ok ref →
      r.lookup "pushed_to" = some (.str pt) →
      pt = pyStr repoV ++ ":" ++ branchOfRef ref ∧
      pt.data.count ':' =
        (pyStr repoV).data.count ':' + 1 + (branchOfRef ref).data.count ':' ∧
      ((pyStr repoV).data.count ':' = 0 → (branchOfRef ref).data.count ':' = 0 →
        pt.data.count ':' = 1)) ∧
    (∀ (now : String) (p : PyVal) (r : Rec) (pt : String) (pr repoV bb : PyVal),
      extract_pull_request_data now p = some r →
      pyGet p "pull_request" (.dict []) = .ok pr →
      repositoryName p = .ok repoV → prBaseBranch pr = .ok bb →
      r.lookup "pushed_to" = some (.str pt) →
      pt = pyStr repoV ++ ":" ++ pyStr bb ∧
      pt.data.count ':' =
        (pyStr repoV).data.count ':' + 1 + (pyStr bb).data.count ':' ∧
      ((pyStr repoV).data.count ':' = 0 → (pyStr bb).data.count ':' = 0 →
        pt.data.count ':' = 1)) := by
  constructor
  · intro now p r pt repoV ref hx hrepo href hpt
    have hb := extract_push_some now p r hx
    have hlk := extract_push_pushed_to now p r repoV ref hrepo href hb
    have hpt2 : pt = pyStr repoV ++ ":" ++ branchOfRef ref :=
      PyVal.str.inj (Option.some.inj (hpt.symm.trans hlk))
    subst hpt2
    refine ⟨rfl, count_colon_append .., fun h1 h2 => ?_⟩
    rw [count_colon_append, h1, h2]
  · intro now p r pt pr repoV bb hx hpr hrepo hbb hpt
    have hb := extract_pr_some now p r hx
    have hlk := extract_pr_pushed_to now p r pr repoV bb hpr hrepo hbb hb
    have hpt2 : pt = pyStr repoV ++ ":" ++ pyStr bb :=
      PyVal.str.inj (Option.some.inj (hpt.symm.trans hlk))
    subst hpt2
    refine ⟨rfl, count_colon_append .., fun h1 h2 => ?_⟩
    rw [count_colon_append, h1, h2]

/-- Witness for C9 at the empty push payload: repository defaults to
`unknown`, ref defaults to `refs/heads/main`, and the stored
`unknown:main` carries exactly the spliced colon. -/
theorem pushed_to_colon_amended_witness :
    "unknown:main" = pyStr (.str "unknown") ++ ":" ++ branchOfRef "refs/heads/main" ∧
    ("unknown:main").data.count ':' =
      (pyStr (.str "unknown")).data.count ':' + 1 +
        (branchOfRef "refs/heads/main").data.count ':' ∧
    ((pyStr (.str "unknown")).data.count ':' = 0 →
      (branchOfRef "refs/heads/main").data.count ':' = 0 →
      ("unknown:main").data.count ':' = 1) :=
  pushed_to_colon_amended.1 "T" (.dict []) defaultPushRec "unknown:main"
    (.str "unknown") "refs/heads/main" rfl rfl rfl rfl

/-! ### C10 -/

/-- C10: in push extraction the fallback to `head_commit.author.name` is
also taken when `pusher.name` is present but empty: whenever the payload
has `pusher.name = ""` and `head_commit.author.name = A`, any successfully
extracted record carries author `A`. -/
theorem empty_pusher_name_fallback (now A : String)
    (dd dp dh da : List (String × PyVal)) (r : Rec)
    (hp : dd.lookup "pusher" = some (.dict dp))
    (hname : dp.lookup "name" = some (.str ""))
    (hhc : dd.lookup "head_commit" = some (.dict dh))
    (hau : dh.lookup "author" = some (.dict da))
    (han : da.lookup "name" = some (.str A))
    (hr : extract_push_data now (.dict dd) = some r) :
    r.lookup "author" = some (.str A) := by
  have hA : pushAuthor (.dict dd) = .ok (.str A) := by
    unfold pushAuthor
    simp [pyGet, hp, hname, hhc, hau, han, pyTruthy, isStrEq,
      bind, Except.bind, pure, Except.pure, String.isEmpty]
  have hb := extract_push_some now _ r hr
  obtain ⟨a, t, onv, smp, ha, -, -, -, rfl⟩ := extract_push_body_shape now _ r hb
  rw [hA] at ha
  obtain rfl : PyVal.str A = a := Except.ok.inj ha
  simp [List.lookup]

/-- Witness for C10 at the concrete empty-pusher payload. -/
theorem empty_pusher_name_fallback_witness :
    emptyPusherRec.lookup "author" = some (.str "A") :=
  empty_pusher_name_fallback "T" "A"
    [("pusher", .dict [("name", .str "")]),
     ("head_commit", .dict [("author", .dict [("name", .str "A")])])]
    [("name", .str "")]
    [("author", .dict [("name", .str "A")])]
    [("name", .str "A")]
    emptyPusherRec rfl rfl rfl rfl rfl rfl

end Webhook
